import Mathlib

/-
Formal model of the draw lifecycle and matchup reconciliation views in
src/tabbycat/draw/views.py.  Persisted Django model instances (Debate,
DebateTeam, Team, Division, Round) are embedded as records; a database is a
record of lists of those records.  View post handlers become functions from
the request payload and the database to either a normal response together
with the updated database, or a raised Python exception together with the
database as mutated so far (Django runs these views in autocommit mode, so
mutations made before an exception persist).
-/

deriving instance DecidableEq for Except

namespace TabbycatDraw

/-- Side of a debate, DebateTeam.POSITION_AFFIRMATIVE / POSITION_NEGATIVE. -/
inductive Position where
  | affirmative
  | negative
deriving DecidableEq, Repr

/-- Round.draw_status values STATUS_NONE, STATUS_DRAFT, STATUS_CONFIRMED,
STATUS_RELEASED. -/
inductive DrawStatus where
  | STATUS_NONE
  | STATUS_DRAFT
  | STATUS_CONFIRMED
  | STATUS_RELEASED
deriving DecidableEq, Repr

/-- Result of datetime.datetime.strptime: a calendar date plus time of day. -/
structure DateTime where
  year : Nat
  month : Nat
  day : Nat
  hour : Nat
  minute : Nat
  second : Nat
deriving DecidableEq, Repr

/-- Result of datetime.datetime.strptime(..., "%H:%M").time(). -/
structure TimeOfDay where
  hour : Nat
  minute : Nat
deriving DecidableEq, Repr

-- ===========================================================================
-- Python string and int helpers used by the views
-- ===========================================================================

/-- Fuelled scan for str.replace(pat, ""): at each position, a match of `pat`
is dropped and scanning resumes after it, otherwise one character is kept.
Each step consumes at least one character, so fuel equal to the length of the
string suffices; the fuel only makes the recursion structural. -/
def pyReplaceAux (pat : List Char) : Nat → List Char → List Char
  | _, [] => []
  | 0, s => s
  | fuel + 1, c :: rest =>
    if pat.isPrefixOf (c :: rest) && !pat.isEmpty then
      pyReplaceAux pat fuel (rest.drop (pat.length - 1))
    else
      c :: pyReplaceAux pat fuel rest

/-- str.replace(pat, "") : removes every non-overlapping occurrence of `pat`,
scanning left to right, exactly as Python does for an empty replacement. -/
def pyReplaceEmpty (pat : List Char) (s : List Char) : List Char :=
  pyReplaceAux pat s.length s

/-- str.replace lifted to String. -/
def pyReplace (s pat : String) : String := ⟨pyReplaceEmpty pat.data s.data⟩

/-- str.startswith. -/
def pyStartsWith (s pre : String) : Bool := pre.data.isPrefixOf s.data

/-- Digit-string value, used by int(). -/
def digitsVal? (cs : List Char) : Option Nat :=
  if cs.isEmpty then none
  else if cs.all Char.isDigit then
    some (cs.foldl (fun a c => a * 10 + (c.toNat - 48)) 0)
  else none

/-- Python int(str): surrounding whitespace is stripped, an optional sign is
followed by decimal digits; anything else raises ValueError (modelled as
none).  (Underscore digit separators, accepted by recent Pythons, are not
modelled; no payload in this development uses them.) -/
def pyInt? (s : String) : Option Int :=
  let cs := ((s.data.dropWhile Char.isWhitespace).reverse.dropWhile
    Char.isWhitespace).reverse
  match cs with
  | '-' :: rest => (digitsVal? rest).map (fun n => -(n : Int))
  | '+' :: rest => (digitsVal? rest).map (fun n => (n : Int))
  | _ => (digitsVal? cs).map (fun n => (n : Int))

-- ===========================================================================
-- datetime.datetime.strptime for the three fixed format strings in views.py
-- ===========================================================================

/-- Greedy run of at most `w` further digits, accumulating onto `acc`.
CPython compiles a numeric strptime directive to a greedy bounded digit
pattern; since every literal separator in the formats used here is a
non-digit, greedy matching without backtracking is equivalent. -/
def grabDigits (w : Nat) (acc : Nat) : List Char → Nat × List Char
  | [] => (acc, [])
  | c :: cs =>
    if w = 0 then (acc, c :: cs)
    else if c.isDigit then grabDigits (w - 1) (acc * 10 + (c.toNat - 48)) cs
    else (acc, c :: cs)

/-- Numeric field of width 1 to `w` digits. -/
def parseNum (w : Nat) : List Char → Option (Nat × List Char)
  | c :: cs =>
    if c.isDigit then some (grabDigits (w - 1) (c.toNat - 48) cs) else none
  | [] => none

/-- Literal (non-whitespace) character in a strptime format. -/
def expectChar (c : Char) : List Char → Option (List Char)
  | x :: xs => if x = c then some xs else none
  | [] => none

/-- Whitespace in a strptime format matches one or more whitespace chars. -/
def skipWs1 : List Char → Option (List Char)
  | x :: xs =>
    if x.isWhitespace then some (xs.dropWhile Char.isWhitespace) else none
  | [] => none

def isLeapYear (y : Nat) : Bool :=
  y % 4 == 0 && (y % 100 != 0 || y % 400 == 0)

def daysInMonth (y m : Nat) : Nat :=
  if m == 2 then (if isLeapYear y then 29 else 28)
  else if m == 4 || m == 6 || m == 9 || m == 11 then 30
  else 31

/-- Field validation performed by the strptime regex ranges together with the
datetime constructor (year 1..9999, real calendar day, time of day). -/
def validDateTime (y mo d h mi s : Nat) : Bool :=
  1 ≤ y && y ≤ 9999 && 1 ≤ mo && mo ≤ 12 && 1 ≤ d && d ≤ daysInMonth y mo &&
    h ≤ 23 && mi ≤ 59 && s ≤ 59

/-- datetime.datetime.strptime(s, "%Y-%m-%d %H:%M:%S"), the "Chrome" layout. -/
def strptimeYmdHMS (s : String) : Option DateTime := do
  let (y, cs) ← parseNum 4 s.data
  let cs ← expectChar '-' cs
  let (mo, cs) ← parseNum 2 cs
  let cs ← expectChar '-' cs
  let (d, cs) ← parseNum 2 cs
  let cs ← skipWs1 cs
  let (h, cs) ← parseNum 2 cs
  let cs ← expectChar ':' cs
  let (mi, cs) ← parseNum 2 cs
  let cs ← expectChar ':' cs
  let (sec, cs) ← parseNum 2 cs
  if cs.isEmpty && validDateTime y mo d h mi sec then
    some ⟨y, mo, d, h, mi, sec⟩
  else none

/-- datetime.datetime.strptime(s, "%d/%m/%Y %H:%M:%S"), the "Others" layout. -/
def strptimeDmyHMS (s : String) : Option DateTime := do
  let (d, cs) ← parseNum 2 s.data
  let cs ← expectChar '/' cs
  let (mo, cs) ← parseNum 2 cs
  let cs ← expectChar '/' cs
  let (y, cs) ← parseNum 4 cs
  let cs ← skipWs1 cs
  let (h, cs) ← parseNum 2 cs
  let cs ← expectChar ':' cs
  let (mi, cs) ← parseNum 2 cs
  let cs ← expectChar ':' cs
  let (sec, cs) ← parseNum 2 cs
  if cs.isEmpty && validDateTime y mo d h mi sec then
    some ⟨y, mo, d, h, mi, sec⟩
  else none

/-- datetime.datetime.strptime(s, "%H:%M").time(). -/
def strptimeHM (s : String) : Option TimeOfDay := do
  let (h, cs) ← parseNum 2 s.data
  let cs ← expectChar ':' cs
  let (mi, cs) ← parseNum 2 cs
  if cs.isEmpty && h ≤ 23 && mi ≤ 59 then some ⟨h, mi⟩ else none

/-- The try/except chain of ApplyDebateScheduleView: attempt the ISO-like
layout first and, only on its ValueError, the day/month/year layout. -/
def parseSubmittedDateTime (s : String) : Option DateTime :=
  match strptimeYmdHMS s with
  | some t => some t
  | none => strptimeDmyHMS s

-- ===========================================================================
-- Data model (draw.models / tournaments.models, as documented in the spec's
-- data-model section and used by views.py)
-- ===========================================================================

/-- A persisted DebateTeam row: owning debate, team, position.  Rows carry a
synthetic primary key so that a freshly created row is distinguishable from a
pre-existing one. -/
structure DebateTeamRec where
  id : Nat
  debate : Int
  team : Int
  position : Position
deriving DecidableEq, Repr

/-- A persisted Debate row.  The `time` field is the scheduled date-time set
by ApplyDebateScheduleView. -/
structure DebateRec where
  id : Int
  round : Nat
  venue : Option Nat
  time : Option DateTime
deriving DecidableEq, Repr

/-- A persisted Team row; `division` is its optional division foreign key. -/
structure TeamRec where
  id : Int
  division : Option Nat
deriving DecidableEq, Repr

/-- A persisted Division row; `time_slot` is an optional time-of-day, stored
here already rendered to the string that "%s" interpolation produces, and
`venue_group` is the division's venue group id. -/
structure DivisionRec where
  id : Nat
  time_slot : Option String
  venue_group : Nat
deriving DecidableEq, Repr

/-- A Round row, as far as these views touch it. -/
structure Round where
  name : String
  draw_status : DrawStatus
  starts_at : Option TimeOfDay
deriving DecidableEq, Repr

/-- The persisted state the draw views read and write.  `nextDtId` is the
synthetic primary-key counter for DebateTeam rows. -/
structure DB where
  debates : List DebateRec
  debateTeams : List DebateTeamRec
  teams : List TeamRec
  divisions : List DivisionRec
  nextDtId : Nat
deriving DecidableEq, Repr

/-- Debate.objects.get(id=d): the row with primary key d, if any. -/
def DB.getDebate? (db : DB) (d : Int) : Option DebateRec :=
  db.debates.find? (fun x => x.id == d)

/-- Team.objects.get(id=t). -/
def DB.getTeam? (db : DB) (t : Int) : Option TeamRec :=
  db.teams.find? (fun x => x.id == t)

def DB.getDivision? (db : DB) (i : Nat) : Option DivisionRec :=
  db.divisions.find? (fun x => x.id == i)

/-- DebateTeam.objects.filter(debate=d): all rows attached to debate d. -/
def DB.dtsOf (db : DB) (d : Int) : List DebateTeamRec :=
  db.debateTeams.filter (fun dt => dt.debate == d)

def DB.hasDebate (db : DB) (d : Int) : Bool :=
  (db.getDebate? d).isSome

/-- DebateTeam.objects.filter(debate=d).delete(). -/
def DB.deleteDebateTeamsOf (db : DB) (d : Int) : DB :=
  { db with debateTeams := db.debateTeams.filter (fun dt => dt.debate != d) }

/-- DebateTeam(debate=d, team=t, position=p).save(): inserts a fresh row. -/
def DB.addDebateTeam (db : DB) (d t : Int) (p : Position) : DB :=
  { db with
    debateTeams := db.debateTeams ++ [⟨db.nextDtId, d, t, p⟩],
    nextDtId := db.nextDtId + 1 }

/-- debate.delete(): removes the Debate row and, by the cascading foreign
key documented in the spec's data model, every DebateTeam row attached to
it. -/
def DB.deleteDebate (db : DB) (d : Int) : DB :=
  { db with
    debates := db.debates.filter (fun x => x.id != d),
    debateTeams := db.debateTeams.filter (fun dt => dt.debate != d) }

/-- debate.time = t; debate.save(). -/
def DB.setDebateTime (db : DB) (d : Int) (t : Option DateTime) : DB :=
  { db with
    debates := db.debates.map (fun x =>
      if x.id == d then { x with time := t } else x) }

-- ===========================================================================
-- Request payload and Python exceptions
-- ===========================================================================

/-- request.POST, a QueryDict.  Django QueryDict yields each key once; we
model it as an association list and assume, where it matters, that keys are
distinct.  (For a duplicated key Django would return the last value; no
theorem below instantiates a duplicated key.) -/
abbrev Payload := List (String × String)

/-- request.POST.get(k) / request.POST[k] without the KeyError. -/
def postGet (post : Payload) (k : String) : Option String :=
  (post.find? (fun kv => kv.fst == k)).map Prod.snd

/-- Python exceptions these handlers can raise. -/
inductive PyErr where
  | debateDoesNotExist (id : Int)
  | teamDoesNotExist (id : Int)
  | valueError
  | attributeError
  | keyError (k : String)
  | indexError
deriving DecidableEq, Repr

-- ===========================================================================
-- SaveDrawMatchups.post (views.py lines 447-503)
-- ===========================================================================

/-- The id-extraction comprehensions: keys of request.POST starting with
`pre` have `pre` stripped (str.replace with empty replacement) and are fed to
int(); a non-numeric remainder raises ValueError (none). -/
def extractIds (pre : String) (post : Payload) : Option (List Int) :=
  ((post.map Prod.fst).filter (fun k => pyStartsWith k pre)).mapM
    (fun k => pyInt? (pyReplace k pre))

/-- One iteration of the existing-debate loop (lines 453-477).  Mutations
before a raised exception persist, so errors carry the database as mutated so
far.  Note line 470 stores the negative team id lookup in the variable named
new_aff_team but attaches it at POSITION_NEGATIVE, so behaviour is as
intended despite the name. -/
def processOneExisting (post : Payload) (db : DB) (debate_id : Int) :
    Except (DB × PyErr) DB :=
  match db.getDebate? debate_id with
  | none => .error (db, .debateDoesNotExist debate_id)
  | some _ =>
    match postGet post ("aff_" ++ toString debate_id) with
    | none => .error (db, .attributeError)
    | some affRaw =>
      match postGet post ("neg_" ++ toString debate_id) with
      | none => .error (db, .attributeError)
      | some negRaw =>
        let new_aff_id := pyReplace affRaw "team_"
        let new_neg_id := pyReplace negRaw "team_"
        if new_aff_id != "" && new_neg_id != "" then
          -- DebateTeam.objects.filter(debate=debate).delete(); debate.save()
          let db1 := db.deleteDebateTeamsOf debate_id
          match pyInt? new_aff_id with
          | none => .error (db1, .valueError)
          | some affId =>
            match db1.getTeam? affId with
            | none => .error (db1, .teamDoesNotExist affId)
            | some _ =>
              let db2 := db1.addDebateTeam debate_id affId .affirmative
              match pyInt? new_neg_id with
              | none => .error (db2, .valueError)
              | some negId =>
                match db2.getTeam? negId with
                | none => .error (db2, .teamDoesNotExist negId)
                | some _ => .ok (db2.addDebateTeam debate_id negId .negative)
        else
          -- blank side: the whole debate is deleted
          .ok (db.deleteDebate debate_id)

def processExistingList (post : Payload) (db : DB) :
    List Int → Except (DB × PyErr) DB
  | [] => .ok db
  | d :: rest =>
    match processOneExisting post db d with
    | .error e => .error e
    | .ok db2 => processExistingList post db2 rest

/-- One iteration of the new-debate loop (lines 482-501).  When both team
fields are non-blank the code executes Debate(round=round, venue=None); the
name round is never bound inside this post method, so it denotes the Python
builtin function round, and the foreign-key descriptor rejects a non-Round
value with ValueError before anything is saved.  When either field is blank
nothing happens. -/
def processOneNew (post : Payload) (db : DB) (debate_id : Int) :
    Except (DB × PyErr) DB :=
  match postGet post ("aff_" ++ toString debate_id) with
  | none => .error (db, .attributeError)
  | some affRaw =>
    match postGet post ("neg_" ++ toString debate_id) with
    | none => .error (db, .attributeError)
    | some negRaw =>
      let new_aff_id := pyReplace affRaw "team_"
      let new_neg_id := pyReplace negRaw "team_"
      if new_aff_id != "" && new_neg_id != "" then
        .error (db, .valueError)
      else
        .ok db

def processNewList (post : Payload) (db : DB) :
    List Int → Except (DB × PyErr) DB
  | [] => .ok db
  | d :: rest =>
    match processOneNew post db d with
    | .error e => .error e
    | .ok db2 => processNewList post db2 rest

/-- SaveDrawMatchups.post: extract existing-debate ids, process them, extract
new-debate ids, process them, answer HttpResponse("ok"). -/
def saveDrawMatchupsPost (post : Payload) (db : DB) :
    Except (DB × PyErr) (DB × String) :=
  match extractIds "debate_" post with
  | none => .error (db, .valueError)
  | some existing_debate_ids =>
    match processExistingList post db existing_debate_ids with
    | .error e => .error e
    | .ok db1 =>
      match extractIds "new_debate_" post with
      | none => .error (db1, .valueError)
      | some new_debate_ids =>
        match processNewList post db1 new_debate_ids with
        | .error e => .error e
        | .ok db2 => .ok (db2, "ok")

/-- The SaveDrawMatchups view as dispatched: RoundMixin resolves a current
round, but the post body never consults it (in particular it never checks
round.draw_status). -/
def saveDrawMatchupsView (_round : Round) (post : Payload) (db : DB) :
    Except (DB × PyErr) (DB × String) :=
  saveDrawMatchupsPost post db

-- ===========================================================================
-- Draw status POST views (views.py lines 240-346)
-- ===========================================================================

/-- Message levels of django.contrib.messages used by these views. -/
inductive MsgLevel where
  | info
  | success
  | warning
  | error
deriving DecidableEq, Repr

abbrev Msg := MsgLevel × String

/-- Responses a DrawStatusEdit post can produce. -/
inductive StatusResponse where
  | redirect (target : String)
  | badRequest (body : String)
deriving DecidableEq, Repr

/-- ConfirmDrawCreationView.post (lines 278-285). -/
def confirmDrawCreationPost (round : Round) : Round × StatusResponse :=
  if round.draw_status != .STATUS_DRAFT then
    (round, .badRequest "Draw status is not DRAFT")
  else
    ({ round with draw_status := .STATUS_CONFIRMED }, .redirect "draw")

/-- DrawReleaseView.post (lines 301-311). -/
def drawReleasePost (round : Round) : Round × StatusResponse :=
  if round.draw_status != .STATUS_CONFIRMED then
    (round, .badRequest "Draw status is not CONFIRMED")
  else
    ({ round with draw_status := .STATUS_RELEASED }, .redirect "draw")

/-- DrawUnreleaseView.post (lines 314-324). -/
def drawUnreleasePost (round : Round) : Round × StatusResponse :=
  if round.draw_status != .STATUS_RELEASED then
    (round, .badRequest "Draw status is not RELEASED")
  else
    ({ round with draw_status := .STATUS_CONFIRMED }, .redirect "draw")

/-- Outcome of CreateDrawView.post: the round and database afterwards,
whether the external pairing generator (DrawManager.create) was invoked,
whether venues were auto-allocated, the queued messages and the response. -/
structure CreateDrawOutcome where
  round : Round
  db : DB
  generatorInvoked : Bool
  venuesAllocated : Bool
  msgs : List Msg
  response : StatusResponse
deriving Repr

/-- CreateDrawView.post (lines 250-272).  The pairing generator and the venue
allocator are external collaborators, passed in as oracles: `gen` either
fails with a DrawError message or returns the round (now DRAFT) and database
with the generated debates; `alloc` is venues.allocator.allocate_venues. -/
def createDrawPost (gen : Round → DB → Except String (Round × DB))
    (alloc : DB → DB) (constraintsExist : Bool) (round : Round) (db : DB) :
    CreateDrawOutcome :=
  if round.draw_status != .STATUS_NONE then
    { round := round, db := db, generatorInvoked := false,
      venuesAllocated := false,
      msgs := [(.error, "Could not create draw for " ++ round.name ++
        ", there was already a draw!")],
      response := .redirect "draw" }
  else
    match gen round db with
    | .error e =>
      { round := round, db := db, generatorInvoked := true,
        venuesAllocated := false,
        msgs := [(.error, "There was a problem creating the draw: " ++ e ++
          " If this issue persists, please contact the developers.")],
        response := .redirect "availability_index" }
    | .ok (round2, db2) =>
      if !constraintsExist then
        { round := round2, db := alloc db2, generatorInvoked := true,
          venuesAllocated := true, msgs := [],
          response := .redirect "draw" }
      else
        { round := round2, db := db2, generatorInvoked := true,
          venuesAllocated := false,
          msgs := [(.warning, "Venues were not auto-allocated because there are one or more adjudicator venue constraints. You should run venue allocations after allocating adjudicators.")],
          response := .redirect "draw" }

/-- SetRoundStartTimeView.post (lines 330-346): parse request.POST with
strptime "%H:%M"; on ValueError queue an error message and redirect without
touching the round; on success store the time on the round. -/
def setRoundStartTimePost (time_text : String) (round : Round) :
    Round × List Msg × StatusResponse :=
  match strptimeHM time_text with
  | none =>
    (round,
      [(.error, "Sorry, \"" ++ time_text ++ "\" isn't a valid time. It must be in 24-hour format, with a colon, for example: \"13:57\".")],
      .redirect "draw")
  | some t =>
    ({ round with starts_at := some t }, [], .redirect "draw")

-- ===========================================================================
-- PublicDrawForRoundView (views.py lines 88-107)
-- ===========================================================================

/-- A debate pairing row as the draw table displays it. -/
structure PairingRow where
  debate : Int
  affTeam : Option Int
  negTeam : Option Int
deriving DecidableEq, Repr

/-- The round's debate set rendered to pairing rows (aff_team / neg_team are
the teams of the AFFIRMATIVE / NEGATIVE DebateTeam rows). -/
def drawRows (db : DB) (roundId : Nat) : List PairingRow :=
  (db.debates.filter (fun d => d.round == roundId)).map (fun d =>
    { debate := d.id,
      affTeam := ((db.dtsOf d.id).find? (fun dt =>
        dt.position == .affirmative)).map (fun dt => dt.team),
      negTeam := ((db.dtsOf d.id).find? (fun dt =>
        dt.position == .negative)).map (fun dt => dt.team) })

/-- PublicDrawForRoundView.get_template_names (lines 92-99): when the round
is not RELEASED, queue the not-yet-released notice and render base.html;
otherwise render the draw table template. -/
def publicDrawTemplateAndMsgs (round : Round) : String × List Msg :=
  if round.draw_status != .STATUS_RELEASED then
    ("base.html",
      [(.info, "The draw for " ++ round.name ++ " has yet to be released")])
  else
    ("draw_display_by.html", [])

/-- The page a public request for the round draw produces. -/
structure RenderedPage where
  template : String
  msgs : List Msg
  pairings : Option (List PairingRow)
deriving Repr

/-- Modelled from the spec: the templates and the Vue table mixin are not
part of the given source.  Per the spec's release-gating sentences, the
base.html page renders only the queued messages (the not-yet-released
notice) and no debate pairing data, while draw_display_by.html renders the
round's pairings. -/
def renderTemplate (template : String) (msgs : List Msg) (db : DB)
    (roundId : Nat) : RenderedPage :=
  if template == "base.html" then
    { template := template, msgs := msgs, pairings := none }
  else
    { template := template, msgs := msgs, pairings := some (drawRows db roundId) }

/-- PublicDrawForRoundView handling a GET for `round` (with persisted
debates of the round identified by `roundId`). -/
def publicDrawForRoundView (round : Round) (roundId : Nat) (db : DB) :
    RenderedPage :=
  let (template, msgs) := publicDrawTemplateAndMsgs round
  renderTemplate template msgs db roundId

-- ===========================================================================
-- ApplyDebateScheduleView.post (views.py lines 376-397)
-- ===========================================================================

/-- One iteration of the schedule loop, for one debate of the round.
debate.teams[0] is the team of the first attached DebateTeam row (IndexError
when there is none); its division, when present and carrying a time slot,
names the venue group whose submitted date string request.POST[...] fetches
(KeyError when the key is absent).  A blank date skips the debate; otherwise
the concatenated string is parsed first with the ISO-like layout and then
with the day/month/year layout, a double failure raising ValueError. -/
def applyScheduleStep (post : Payload) (db : DB) (debate : DebateRec) :
    Except (DB × PyErr) DB :=
  match (db.dtsOf debate.id).head? with
  | none => .error (db, .indexError)
  | some dt =>
    match db.getTeam? dt.team with
    | none => .error (db, .teamDoesNotExist dt.team)
    | some team =>
      match team.division with
      | none => .ok db
      | some divId =>
        match db.getDivision? divId with
        | none => .ok db
        | some division =>
          match division.time_slot with
          | none => .ok db
          | some slot =>
            match postGet post (toString division.venue_group) with
            | none => .error (db, .keyError (toString division.venue_group))
            | some date =>
              if date == "" then .ok db
              else
                match parseSubmittedDateTime (date ++ " " ++ slot) with
                | some t => .ok (db.setDebateTime debate.id (some t))
                | none => .error (db, .valueError)

def applyScheduleList (post : Payload) (db : DB) :
    List DebateRec → Except (DB × PyErr) DB
  | [] => .ok db
  | d :: rest =>
    match applyScheduleStep post db d with
    | .error e => .error e
    | .ok db2 => applyScheduleList post db2 rest

/-- ApplyDebateScheduleView.post: iterate over the round's debates (the
queryset is evaluated once, before any mutation), then queue the success
message. -/
def applyDebateSchedulePost (post : Payload) (roundId : Nat) (db : DB) :
    Except (DB × PyErr) (DB × List Msg × StatusResponse) :=
  match applyScheduleList post db
      (db.debates.filter (fun d => d.round == roundId)) with
  | .error e => .error e
  | .ok db2 =>
    .ok (db2, [(.success, "Applied schedules to debates")], .redirect "draw")

-- ===========================================================================
-- Database invariants threaded through the reconciliation loop
-- ===========================================================================

/-- Primary keys of DebateTeam rows are below the counter and distinct. -/
def dtKeysSound (db : DB) : Prop :=
  (∀ dt ∈ db.debateTeams, dt.id < db.nextDtId) ∧
  (db.debateTeams.map DebateTeamRec.id).Nodup

/-- At most one DebateTeam per (debate, position), phrased pairwise: two
rows agreeing on debate and position are the same row. -/
def positionInvariant (db : DB) : Prop :=
  ∀ x ∈ db.debateTeams, ∀ y ∈ db.debateTeams,
    x.debate = y.debate → x.position = y.position → x.id = y.id

/-- No persisted debate has exactly one DebateTeam row attached. -/
def noHalfPair (db : DB) : Prop :=
  ∀ dr ∈ db.debates, (db.dtsOf dr.id).length ≠ 1

instance (db : DB) : Decidable (dtKeysSound db) :=
  inferInstanceAs (Decidable (_ ∧ _))

instance (db : DB) : Decidable (positionInvariant db) :=
  inferInstanceAs (Decidable (∀ x ∈ db.debateTeams, ∀ y ∈ db.debateTeams,
    x.debate = y.debate → x.position = y.position → x.id = y.id))

instance (db : DB) : Decidable (noHalfPair db) :=
  inferInstanceAs (Decidable (∀ dr ∈ db.debates,
    (db.dtsOf dr.id).length ≠ 1))

/-- The conditions under which the schedule loop leaves a debate alone and
moves on: its team has no division, or the division has no time slot, or
the submitted date string for the division's venue group is blank. -/
def scheduleSkip (post : Payload) (db : DB) (dr : DebateRec) : Prop :=
  ∃ dt, (db.dtsOf dr.id).head? = some dt ∧
    ∃ team, db.getTeam? dt.team = some team ∧
      (team.division = none ∨
        ∃ divId division, team.division = some divId ∧
          db.getDivision? divId = some division ∧
          (division.time_slot = none ∨
            ∃ slot, division.time_slot = some slot ∧
              postGet post (toString division.venue_group) = some ""))

-- ===========================================================================
-- Concrete rounds, payloads and databases instantiating the theorems below
-- ===========================================================================

def rNone : Round := ⟨"Round 1", .STATUS_NONE, none⟩

def rReleased : Round := ⟨"Round 1", .STATUS_RELEASED, none⟩

/-- A pairing generator oracle that always reports an infeasible draw. -/
def wGen : Round → DB → Except String (Round × DB) :=
  fun _ _ => .error "infeasible"

/-- One debate (id 10, round 1) currently pairing teams 7 and 8. -/
def wdb0 : DB :=
  ⟨[⟨10, 1, none, none⟩],
   [⟨0, 10, 7, .affirmative⟩, ⟨1, 10, 8, .negative⟩],
   [⟨1, none⟩, ⟨2, none⟩, ⟨7, none⟩, ⟨8, none⟩], [], 2⟩

/-- wdb0 after the matchup of debate 10 is edited to teams 1 vs 2. -/
def wdb1 : DB :=
  ⟨[⟨10, 1, none, none⟩],
   [⟨2, 10, 1, .affirmative⟩, ⟨3, 10, 2, .negative⟩],
   [⟨1, none⟩, ⟨2, none⟩, ⟨7, none⟩, ⟨8, none⟩], [], 4⟩

/-- wdb0 as left behind when the negative team lookup fails after the
affirmative row was already saved. -/
def wdbHalf : DB :=
  ⟨[⟨10, 1, none, none⟩],
   [⟨2, 10, 1, .affirmative⟩],
   [⟨1, none⟩, ⟨2, none⟩, ⟨7, none⟩, ⟨8, none⟩], [], 3⟩

/-- An existing-debate edit of debate 10 to teams 1 vs 2. -/
def wpost : Payload :=
  [("debate_10", "x"), ("aff_10", "team_1"), ("neg_10", "team_2")]

/-- The same edit with a negative team id that resolves to no Team row. -/
def wpostMissingNeg : Payload :=
  [("debate_10", "x"), ("aff_10", "team_1"), ("neg_10", "team_99")]

/-- A new-debate entry pairing teams 1 and 2. -/
def wpostNew : Payload :=
  [("new_debate_3", "x"), ("aff_3", "team_1"), ("neg_3", "team_2")]

/-- A new-debate entry with a blank negative side. -/
def wpostNewBlank : Payload :=
  [("new_debate_3", "x"), ("aff_3", "team_1"), ("neg_3", "")]

/-- Two debates with no rows yet, and a payload assigning team 1 as the
affirmative of both. -/
def wdbDup : DB :=
  ⟨[⟨10, 1, none, none⟩, ⟨11, 1, none, none⟩], [],
   [⟨1, none⟩, ⟨2, none⟩, ⟨3, none⟩], [], 0⟩

def wpostDup : Payload :=
  [("debate_10", "x"), ("aff_10", "team_1"), ("neg_10", "team_2"),
   ("debate_11", "x"), ("aff_11", "team_1"), ("neg_11", "team_3")]

/-- wdbDup after wpostDup is applied: team 1 now sits in both debates. -/
def wdbDupAfter : DB :=
  ⟨[⟨10, 1, none, none⟩, ⟨11, 1, none, none⟩],
   [⟨0, 10, 1, .affirmative⟩, ⟨1, 10, 2, .negative⟩,
    ⟨2, 11, 1, .affirmative⟩, ⟨3, 11, 3, .negative⟩],
   [⟨1, none⟩, ⟨2, none⟩, ⟨3, none⟩], [], 4⟩

/-- One schedulable debate: debate 20 in round 1, its first team 5 in
division 3, which has time slot "14:30:00" and venue group 7. -/
def wdbSched : DB :=
  ⟨[⟨20, 1, none, none⟩],
   [⟨0, 20, 5, .affirmative⟩, ⟨1, 20, 6, .negative⟩],
   [⟨5, some 3⟩, ⟨6, some 3⟩],
   [⟨3, some "14:30:00", 7⟩], 2⟩

/-- wdbSched with debate 20 scheduled for 15 March 2024, 14:30:00. -/
def wdbSched15 : DB :=
  ⟨[⟨20, 1, none, some ⟨2024, 3, 15, 14, 30, 0⟩⟩],
   [⟨0, 20, 5, .affirmative⟩, ⟨1, 20, 6, .negative⟩],
   [⟨5, some 3⟩, ⟨6, some 3⟩],
   [⟨3, some "14:30:00", 7⟩], 2⟩

/-- A debate whose first team has no division, so scheduling skips it. -/
def wdbSkip : DB :=
  ⟨[⟨30, 1, none, none⟩],
   [⟨0, 30, 9, .affirmative⟩],
   [⟨9, none⟩], [], 1⟩

-- ===========================================================================
-- Lemmas about the database operations
-- ===========================================================================

theorem filter_debate_filter_ne {l : List DebateTeamRec} {d e : Int}
    (h : d ≠ e) :
    (l.filter (fun dt => dt.debate != e)).filter (fun dt => dt.debate == d)
      = l.filter (fun dt => dt.debate == d) := by
  induction l with
  | nil => rfl
  | cons a t ih =>
    by_cases hae : a.debate = e
    · have had : (a.debate == d) = false := by
        simp [hae]
        omega
      simp [List.filter_cons, hae, had, ih, Ne.symm h]
    · simp [List.filter_cons, hae, ih]

theorem filter_debate_filter_self {l : List DebateTeamRec} {e : Int} :
    (l.filter (fun dt => dt.debate != e)).filter (fun dt => dt.debate == e)
      = [] := by
  induction l with
  | nil => rfl
  | cons a t ih =>
    by_cases hae : a.debate = e <;> simp [List.filter_cons, hae, ih]

theorem find?_debateRec_filter_ne {l : List DebateRec} {d e : Int}
    (h : d ≠ e) :
    (l.filter (fun x => x.id != e)).find? (fun x => x.id == d)
      = l.find? (fun x => x.id == d) := by
  induction l with
  | nil => rfl
  | cons a t ih =>
    by_cases hae : a.id = e
    · have had : (a.id == d) = false := by
        simp [hae]
        omega
      simp [List.filter_cons, List.find?_cons, hae, had, ih, Ne.symm h]
    · by_cases had : a.id = d <;>
        simp [List.filter_cons, List.find?_cons, hae, had, ih, h]

theorem find?_debateRec_filter_self {l : List DebateRec} {e : Int} :
    (l.filter (fun x => x.id != e)).find? (fun x => x.id == e) = none := by
  induction l with
  | nil => rfl
  | cons a t ih =>
    by_cases hae : a.id = e <;>
      simp [List.filter_cons, List.find?_cons, hae, ih]

theorem dtsOf_deleteDebateTeamsOf (db : DB) (d e : Int) :
    (db.deleteDebateTeamsOf e).dtsOf d
      = if d = e then [] else db.dtsOf d := by
  by_cases h : d = e
  · subst h
    simp [DB.dtsOf, DB.deleteDebateTeamsOf, filter_debate_filter_self]
  · simp [DB.dtsOf, DB.deleteDebateTeamsOf, h, filter_debate_filter_ne h]

theorem dtsOf_deleteDebate (db : DB) (d e : Int) :
    (db.deleteDebate e).dtsOf d = if d = e then [] else db.dtsOf d := by
  by_cases h : d = e
  · subst h
    simp [DB.dtsOf, DB.deleteDebate, filter_debate_filter_self]
  · simp [DB.dtsOf, DB.deleteDebate, h, filter_debate_filter_ne h]

theorem dtsOf_addDebateTeam (db : DB) (d e t : Int) (p : Position) :
    (db.addDebateTeam e t p).dtsOf d
      = db.dtsOf d ++ (if d = e then [⟨db.nextDtId, e, t, p⟩] else []) := by
  by_cases h : d = e <;>
    simp [DB.dtsOf, DB.addDebateTeam, List.filter_append, List.filter_cons, h]
  · omega

theorem getDebate?_deleteDebateTeamsOf (db : DB) (d e : Int) :
    (db.deleteDebateTeamsOf e).getDebate? d = db.getDebate? d := rfl

theorem getDebate?_addDebateTeam (db : DB) (d e t : Int) (p : Position) :
    (db.addDebateTeam e t p).getDebate? d = db.getDebate? d := rfl

theorem getDebate?_deleteDebate_ne (db : DB) {d e : Int} (h : d ≠ e) :
    (db.deleteDebate e).getDebate? d = db.getDebate? d :=
  find?_debateRec_filter_ne h

theorem hasDebate_deleteDebate_self (db : DB) (e : Int) :
    (db.deleteDebate e).hasDebate e = false := by
  simp [DB.hasDebate, DB.getDebate?, DB.deleteDebate,
    find?_debateRec_filter_self]

-- ===========================================================================
-- Characterization of one successful existing-debate iteration
-- ===========================================================================

/-- A successful iteration of the existing-debate loop is either the
full delete-then-recreate of the debate's two team rows (both fields
non-blank, both ids resolving), or the deletion of the whole debate (a
blank field). -/
theorem processOneExisting_ok_elim {post : Payload} {db : DB} {e : Int}
    {db2 : DB} (h : processOneExisting post db e = .ok db2) :
    ∃ affRaw negRaw,
      (db.getDebate? e).isSome = true ∧
      postGet post ("aff_" ++ toString e) = some affRaw ∧
      postGet post ("neg_" ++ toString e) = some negRaw ∧
      ((pyReplace affRaw "team_" ≠ "" ∧ pyReplace negRaw "team_" ≠ "" ∧
        ∃ affId negId,
          pyInt? (pyReplace affRaw "team_") = some affId ∧
          pyInt? (pyReplace negRaw "team_") = some negId ∧
          (db.getTeam? affId).isSome = true ∧
          (db.getTeam? negId).isSome = true ∧
          db2 = ((db.deleteDebateTeamsOf e).addDebateTeam e affId
            .affirmative).addDebateTeam e negId .negative) ∨
       ((pyReplace affRaw "team_" = "" ∨ pyReplace negRaw "team_" = "") ∧
        db2 = db.deleteDebate e)) := by
  unfold processOneExisting at h
  split at h
  · exact absurd h (by simp)
  next deb hdeb =>
    split at h
    · exact absurd h (by simp)
    next affRaw haff =>
      split at h
      · exact absurd h (by simp)
      next negRaw hneg =>
        refine ⟨affRaw, negRaw, by simp [hdeb], haff, hneg, ?_⟩
        dsimp only at h
        split at h
        next hcond =>
          rw [Bool.and_eq_true] at hcond
          split at h
          · exact absurd h (by simp)
          next affId haffId =>
            split at h
            · exact absurd h (by simp)
            next ta hta =>
              split at h
              · exact absurd h (by simp)
              next negId hnegId =>
                split at h
                · exact absurd h (by simp)
                next tn htn =>
                  left
                  refine ⟨by simpa using hcond.1, by simpa using hcond.2,
                    affId, negId, haffId, hnegId,
                    by rw [show db.getTeam? affId = some ta from hta]; rfl,
                    by rw [show db.getTeam? negId = some tn from htn]; rfl,
                    ?_⟩
                  exact (Except.ok.injEq _ _).mp h.symm
        next hcond =>
          right
          rw [Bool.and_eq_true, not_and_or] at hcond
          constructor
          · rcases hcond with hc | hc <;> [left; right] <;>
              simpa using hc
          · exact (Except.ok.injEq _ _).mp h.symm

/-- A successful iteration leaves teams and divisions alone, never creates a
debate, never lowers the row counter, and does not touch the rows of any
other debate. -/
theorem processOneExisting_ok_frame {post : Payload} {db : DB} {e : Int}
    {db2 : DB} (h : processOneExisting post db e = .ok db2) :
    db2.teams = db.teams ∧ db2.divisions = db.divisions ∧
    db2.debates.Sublist db.debates ∧ db.nextDtId ≤ db2.nextDtId ∧
    ∀ d, d ≠ e →
      db2.dtsOf d = db.dtsOf d ∧ db2.getDebate? d = db.getDebate? d := by
  obtain ⟨affRaw, negRaw, _, _, _, hcase⟩ := processOneExisting_ok_elim h
  rcases hcase with ⟨_, _, affId, negId, _, _, _, _, rfl⟩ | ⟨_, rfl⟩
  · refine ⟨rfl, rfl, List.Sublist.refl _, ?_, ?_⟩
    · show db.nextDtId ≤ db.nextDtId + 1 + 1
      omega
    · intro d hd
      refine ⟨?_, rfl⟩
      rw [dtsOf_addDebateTeam, dtsOf_addDebateTeam, dtsOf_deleteDebateTeamsOf]
      simp [hd]
  · refine ⟨rfl, rfl, List.filter_sublist _, le_refl _, ?_⟩
    intro d hd
    exact ⟨by rw [dtsOf_deleteDebate]; simp [hd],
      getDebate?_deleteDebate_ne db hd⟩

/-- A successful iteration of the new-debate loop changes nothing: the
branch that would create records raises ValueError first (the unbound name
round), and the blank branch does nothing. -/
theorem processOneNew_ok_eq {post : Payload} {db : DB} {e : Int} {db2 : DB}
    (h : processOneNew post db e = .ok db2) : db2 = db := by
  unfold processOneNew at h
  split at h
  · exact absurd h (by simp)
  next affRaw haff =>
    split at h
    · exact absurd h (by simp)
    next negRaw hneg =>
      dsimp only at h
      split at h
      · exact absurd h (by simp)
      · exact (Except.ok.injEq _ _).mp h.symm

theorem processNewList_ok_eq {post : Payload} :
    ∀ {l : List Int} {db db2 : DB},
      processNewList post db l = .ok db2 → db2 = db := by
  intro l
  induction l with
  | nil =>
    intro db db2 h
    exact (Except.ok.injEq _ _).mp h.symm
  | cons d rest ih =>
    intro db db2 h
    unfold processNewList at h
    split at h
    · exact absurd h (by simp)
    next dbm hdbm =>
      rw [processOneNew_ok_eq hdbm] at h
      exact ih h

/-- Frame property of the whole existing-debate loop for a debate id not in
the processed list. -/
theorem processExistingList_frame {post : Payload} :
    ∀ {l : List Int} {db db2 : DB},
      processExistingList post db l = .ok db2 → ∀ d, d ∉ l →
        db2.dtsOf d = db.dtsOf d ∧ db2.getDebate? d = db.getDebate? d ∧
        db.nextDtId ≤ db2.nextDtId := by
  intro l
  induction l with
  | nil =>
    intro db db2 h d _
    rw [((Except.ok.injEq _ _).mp h.symm).symm]
    exact ⟨rfl, rfl, le_refl _⟩
  | cons e rest ih =>
    intro db db2 h d hd
    unfold processExistingList at h
    split at h
    · exact absurd h (by simp)
    next dbm hdbm =>
      have hne : d ≠ e := fun hc => hd (hc ▸ List.mem_cons_self e rest)
      have hrest : d ∉ rest := fun hc => hd (List.mem_cons_of_mem e hc)
      obtain ⟨h1, h2, h3⟩ := ih h d hrest
      obtain ⟨_, _, _, hmono, hframe⟩ := processOneExisting_ok_frame hdbm
      obtain ⟨hf1, hf2⟩ := hframe d hne
      exact ⟨h1.trans hf1, h2.trans hf2, le_trans hmono h3⟩

theorem processExistingList_append {post : Payload} :
    ∀ {l1 l2 : List Int} {db db2 : DB},
      processExistingList post db (l1 ++ l2) = .ok db2 ↔
        ∃ dbm, processExistingList post db l1 = .ok dbm ∧
          processExistingList post dbm l2 = .ok db2 := by
  intro l1
  induction l1 with
  | nil =>
    intro l2 db db2
    constructor
    · intro h
      exact ⟨db, rfl, h⟩
    · rintro ⟨dbm, h1, h2⟩
      have hdb : dbm = db := (Except.ok.injEq _ _).mp h1.symm
      subst hdb
      exact h2
  | cons e rest ih =>
    intro l2 db db2
    constructor
    · intro h
      rw [List.cons_append] at h
      unfold processExistingList at h
      split at h
      · exact absurd h (by simp)
      next dbm hdbm =>
        obtain ⟨dbx, hx1, hx2⟩ := ih.mp h
        refine ⟨dbx, ?_, hx2⟩
        unfold processExistingList
        rw [hdbm]
        exact hx1
    · rintro ⟨dbm, h1, h2⟩
      rw [List.cons_append]
      unfold processExistingList at h1 ⊢
      split at h1
      · exact absurd h1 (by simp)
      next dbx hdbx =>
        exact ih.mpr ⟨dbm, h1, h2⟩

/-- Decomposition of a successful SaveDrawMatchups request: the response is
the literal "ok", both id extractions succeeded, and the final database is
the one the existing-debate loop produced (the new-debate loop cannot change
anything). -/
theorem saveDrawMatchupsPost_ok_elim {post : Payload} {db db' : DB}
    {resp : String} (h : saveDrawMatchupsPost post db = .ok (db', resp)) :
    resp = "ok" ∧ ∃ ids nids,
      extractIds "debate_" post = some ids ∧
      extractIds "new_debate_" post = some nids ∧
      processExistingList post db ids = .ok db' := by
  unfold saveDrawMatchupsPost at h
  split at h
  · exact absurd h (by simp)
  next ids hids =>
    split at h
    · exact absurd h (by simp)
    next db1 hdb1 =>
      split at h
      · exact absurd h (by simp)
      next nids hnids =>
        split at h
        · exact absurd h (by simp)
        next db2 hdb2 =>
          have hpair := (Except.ok.injEq _ _).mp h
          have hresp : resp = "ok" := by
            have := congrArg Prod.snd hpair
            simpa using this.symm
          have hdb : db' = db2 := by
            have := congrArg Prod.fst hpair
            simpa using this.symm
          subst hdb
          rw [processNewList_ok_eq hdb2] at *
          exact ⟨hresp, ids, nids, hids, hnids, hdb1⟩

/-- What a successful iteration does to the rows of its own debate, phrased
with the request values fixed by hypotheses. -/
theorem processOneExisting_ok_self {post : Payload} {db : DB} {e : Int}
    {db2 : DB} {affRaw negRaw : String}
    (h : processOneExisting post db e = .ok db2)
    (haff : postGet post ("aff_" ++ toString e) = some affRaw)
    (hneg : postGet post ("neg_" ++ toString e) = some negRaw) :
    (pyReplace affRaw "team_" ≠ "" ∧ pyReplace negRaw "team_" ≠ "" ∧
      ∃ affId negId,
        pyInt? (pyReplace affRaw "team_") = some affId ∧
        pyInt? (pyReplace negRaw "team_") = some negId ∧
        db2.dtsOf e = [⟨db.nextDtId, e, affId, .affirmative⟩,
          ⟨db.nextDtId + 1, e, negId, .negative⟩]) ∨
    ((pyReplace affRaw "team_" = "" ∨ pyReplace negRaw "team_" = "") ∧
      db2.hasDebate e = false ∧ db2.dtsOf e = []) := by
  obtain ⟨affRaw', negRaw', _, haff', hneg', hcase⟩ :=
    processOneExisting_ok_elim h
  have ha : affRaw' = affRaw := by
    rw [haff] at haff'
    exact (Option.some.injEq _ _).mp haff'.symm
  have hb : negRaw' = negRaw := by
    rw [hneg] at hneg'
    exact (Option.some.injEq _ _).mp hneg'.symm
  subst ha hb
  rcases hcase with ⟨hna, hnb, affId, negId, hia, hib, _, _, rfl⟩ |
      ⟨hblank, rfl⟩
  · left
    refine ⟨hna, hnb, affId, negId, hia, hib, ?_⟩
    rw [dtsOf_addDebateTeam, dtsOf_addDebateTeam, dtsOf_deleteDebateTeamsOf]
    simp [DB.addDebateTeam, DB.deleteDebateTeamsOf]
  · right
    refine ⟨hblank, hasDebate_deleteDebate_self db e, ?_⟩
    rw [dtsOf_deleteDebate]
    simp

theorem processOneExisting_dtKeysSound {post : Payload} {db : DB} {e : Int}
    {db2 : DB} (h : processOneExisting post db e = .ok db2)
    (hk : dtKeysSound db) : dtKeysSound db2 := by
  obtain ⟨hlt, hnd⟩ := hk
  obtain ⟨affRaw, negRaw, _, _, _, hcase⟩ := processOneExisting_ok_elim h
  rcases hcase with ⟨_, _, affId, negId, _, _, _, _, rfl⟩ | ⟨_, rfl⟩
  · constructor
    · intro dt hdt
      show dt.id < db.nextDtId + 1 + 1
      simp only [DB.addDebateTeam, DB.deleteDebateTeamsOf, List.mem_append,
        List.mem_singleton] at hdt
      rcases hdt with ⟨hdt | hdt⟩ | hdt
      · have := hlt dt (List.mem_of_mem_filter hdt)
        omega
      · rw [hdt]
        show db.nextDtId < db.nextDtId + 1 + 1
        omega
      · rw [hdt]
        show db.nextDtId + 1 < db.nextDtId + 1 + 1
        omega
    · show ((db.debateTeams.filter _ ++ [_]) ++ [_]).map _ |>.Nodup
      rw [List.map_append, List.map_append]
      have hsub : (db.debateTeams.filter
          (fun dt => dt.debate != e)).map DebateTeamRec.id
            |>.Sublist (db.debateTeams.map DebateTeamRec.id) :=
        List.Sublist.map _ (List.filter_sublist _)
      have hnd' := hnd.sublist hsub
      have hbound : ∀ i ∈ (db.debateTeams.filter
          (fun dt => dt.debate != e)).map DebateTeamRec.id,
          i < db.nextDtId := by
        intro i hi
        obtain ⟨dt, hdt, rfl⟩ := List.mem_map.mp hi
        exact hlt dt (List.mem_of_mem_filter hdt)
      rw [List.nodup_append, List.nodup_append]
      refine ⟨⟨hnd', List.nodup_singleton _, ?_⟩,
        List.nodup_singleton _, ?_⟩
      · intro i hi hj
        have hb := hbound i hi
        simp only [List.map_cons, List.map_nil, List.mem_singleton,
          DB.deleteDebateTeamsOf, DB.addDebateTeam] at hj
        omega
      · intro i hi hj
        simp only [List.map_cons, List.map_nil, List.mem_singleton,
          DB.deleteDebateTeamsOf, DB.addDebateTeam] at hj
        simp only [List.mem_append, List.map_cons, List.map_nil,
          List.mem_singleton, DB.deleteDebateTeamsOf, DB.addDebateTeam] at hi
        rcases hi with hi | hi
        · have hb := hbound i hi
          omega
        · omega
  · constructor
    · intro dt hdt
      exact hlt dt (List.mem_of_mem_filter hdt)
    · exact hnd.sublist (List.Sublist.map _ (List.filter_sublist _))

theorem processOneExisting_positionInvariant {post : Payload} {db : DB}
    {e : Int} {db2 : DB} (h : processOneExisting post db e = .ok db2)
    (hp : positionInvariant db) : positionInvariant db2 := by
  obtain ⟨affRaw, negRaw, _, _, _, hcase⟩ := processOneExisting_ok_elim h
  rcases hcase with ⟨_, _, affId, negId, _, _, _, _, rfl⟩ | ⟨_, rfl⟩
  · intro x hx y hy hdeb hpos
    simp only [DB.addDebateTeam, DB.deleteDebateTeamsOf, List.mem_append,
      List.mem_singleton] at hx hy
    have hmf : ∀ z : DebateTeamRec,
        z ∈ db.debateTeams.filter (fun dt => dt.debate != e) →
        z.debate ≠ e := by
      intro z hz
      have := (List.mem_filter.mp hz).2
      simpa using this
    rcases hx with ⟨hx | hx⟩ | hx <;> rcases hy with ⟨hy | hy⟩ | hy
    · exact hp x (List.mem_of_mem_filter hx) y (List.mem_of_mem_filter hy)
        hdeb hpos
    · exact absurd (by rw [hdeb, hy]) (hmf x hx)
    · exact absurd (by rw [hdeb, hy]) (hmf x hx)
    · exact absurd (by rw [← hdeb, hx]) (hmf y hy)
    · rw [hx, hy]
    · exfalso
      rw [hx, hy] at hpos
      simp at hpos
    · exact absurd (by rw [← hdeb, hx]) (hmf y hy)
    · exfalso
      rw [hx, hy] at hpos
      simp at hpos
    · rw [hx, hy]
  · intro x hx y hy hdeb hpos
    exact hp x (List.mem_of_mem_filter hx) y (List.mem_of_mem_filter hy)
      hdeb hpos

theorem processOneExisting_noHalfPair {post : Payload} {db : DB} {e : Int}
    {db2 : DB} (h : processOneExisting post db e = .ok db2)
    (hn : noHalfPair db) : noHalfPair db2 := by
  obtain ⟨affRaw, negRaw, _, _, _, hcase⟩ := processOneExisting_ok_elim h
  rcases hcase with ⟨_, _, affId, negId, _, _, _, _, rfl⟩ | ⟨_, rfl⟩
  · intro dr hdr
    have hdr' : dr ∈ db.debates := hdr
    by_cases hde : dr.id = e
    · rw [hde, dtsOf_addDebateTeam, dtsOf_addDebateTeam,
        dtsOf_deleteDebateTeamsOf]
      simp
    · rw [dtsOf_addDebateTeam, dtsOf_addDebateTeam,
        dtsOf_deleteDebateTeamsOf]
      simp only [hde, if_false, List.append_nil]
      exact hn dr hdr'
  · intro dr hdr
    simp only [DB.deleteDebate, List.mem_filter, bne_iff_ne, ne_eq,
      decide_eq_true_eq] at hdr
    rw [dtsOf_deleteDebate]
    simp only [hdr.2, if_false]
    exact hn dr hdr.1

theorem processExistingList_dtKeysSound {post : Payload} :
    ∀ {l : List Int} {db db2 : DB},
      processExistingList post db l = .ok db2 → dtKeysSound db →
        dtKeysSound db2 := by
  intro l
  induction l with
  | nil =>
    intro db db2 h hk
    rw [(Except.ok.injEq _ _).mp h.symm]
    exact hk
  | cons e rest ih =>
    intro db db2 h hk
    unfold processExistingList at h
    split at h
    · exact absurd h (by simp)
    next dbm hdbm =>
      exact ih h (processOneExisting_dtKeysSound hdbm hk)

theorem processExistingList_positionInvariant {post : Payload} :
    ∀ {l : List Int} {db db2 : DB},
      processExistingList post db l = .ok db2 → positionInvariant db →
        positionInvariant db2 := by
  intro l
  induction l with
  | nil =>
    intro db db2 h hp
    rw [(Except.ok.injEq _ _).mp h.symm]
    exact hp
  | cons e rest ih =>
    intro db db2 h hp
    unfold processExistingList at h
    split at h
    · exact absurd h (by simp)
    next dbm hdbm =>
      exact ih h (processOneExisting_positionInvariant hdbm hp)

theorem processExistingList_noHalfPair {post : Payload} :
    ∀ {l : List Int} {db db2 : DB},
      processExistingList post db l = .ok db2 → noHalfPair db →
        noHalfPair db2 := by
  intro l
  induction l with
  | nil =>
    intro db db2 h hn
    rw [(Except.ok.injEq _ _).mp h.symm]
    exact hn
  | cons e rest ih =>
    intro db db2 h hn
    unfold processExistingList at h
    split at h
    · exact absurd h (by simp)
    next dbm hdbm =>
      exact ih h (processOneExisting_noHalfPair hdbm hn)

-- ===========================================================================
-- Lemmas about the schedule loop
-- ===========================================================================

theorem find?_setTime_map {l : List DebateRec} {d e : Int}
    {t : Option DateTime} (h : d ≠ e) :
    (l.map (fun x => if x.id == e then { x with time := t } else x)).find?
        (fun x => x.id == d)
      = l.find? (fun x => x.id == d) := by
  induction l with
  | nil => rfl
  | cons a rest ih =>
    rw [List.map_cons]
    by_cases hae : a.id = e
    · have had : (a.id == d) = false := by
        simp [hae]
        omega
      rw [if_pos (by simp [hae] : (a.id == e) = true)]
      rw [List.find?_cons, List.find?_cons]
      have h1 : (({ a with time := t } : DebateRec).id == d) = false := had
      rw [h1]
      exact ih
    · rw [if_neg (by simp [hae] : ¬(a.id == e) = true)]
      rw [List.find?_cons, List.find?_cons]
      by_cases had : a.id = d
      · rw [show (a.id == d) = true by simp [had]]
      · rw [show (a.id == d) = false by simp [had]]
        exact ih

theorem getDebate?_setDebateTime_ne (db : DB) {d e : Int}
    (t : Option DateTime) (h : d ≠ e) :
    (db.setDebateTime e t).getDebate? d = db.getDebate? d :=
  find?_setTime_map h

/-- A debate meeting one of the skip conditions is left alone, and the loop
does not raise on it. -/
theorem applyScheduleStep_skip {post : Payload} {db : DB} {dr : DebateRec}
    (h : scheduleSkip post db dr) :
    applyScheduleStep post db dr = .ok db := by
  obtain ⟨dt, hdt, team, hteam, hcase⟩ := h
  unfold applyScheduleStep
  rcases hcase with hdiv | ⟨divId, division, hdiv, hget, hcase2⟩
  · simp only [hdt, hteam, hdiv]
  · rcases hcase2 with hts | ⟨slot, hts, hdate⟩
    · simp only [hdt, hteam, hdiv, hget, hts]
    · simp only [hdt, hteam, hdiv, hget, hts, hdate]
      simp

/-- A successful schedule iteration only ever writes the time of its own
debate. -/
theorem applyScheduleStep_ok_frame {post : Payload} {db : DB}
    {dr : DebateRec} {db2 : DB}
    (h : applyScheduleStep post db dr = .ok db2) :
    db2.debateTeams = db.debateTeams ∧ db2.teams = db.teams ∧
    db2.divisions = db.divisions ∧
    ∀ d, d ≠ dr.id → db2.getDebate? d = db.getDebate? d := by
  unfold applyScheduleStep at h
  split at h
  · exact absurd h (by simp)
  next dt hdt =>
    split at h
    · exact absurd h (by simp)
    next team hteam =>
      split at h
      · rw [(Except.ok.injEq _ _).mp h]
        exact ⟨rfl, rfl, rfl, fun _ _ => rfl⟩
      next divId hdiv =>
        split at h
        · rw [(Except.ok.injEq _ _).mp h]
          exact ⟨rfl, rfl, rfl, fun _ _ => rfl⟩
        next division hget =>
          split at h
          · rw [(Except.ok.injEq _ _).mp h]
            exact ⟨rfl, rfl, rfl, fun _ _ => rfl⟩
          next slot hts =>
            split at h
            · exact absurd h (by simp)
            next date hdate =>
              split at h
              · rw [(Except.ok.injEq _ _).mp h]
                exact ⟨rfl, rfl, rfl, fun _ _ => rfl⟩
              · split at h
                next t hparse =>
                  rw [← (Except.ok.injEq _ _).mp h]
                  exact ⟨rfl, rfl, rfl,
                    fun d hd => getDebate?_setDebateTime_ne db _ hd⟩
                · exact absurd h (by simp)

/-- scheduleSkip only looks at fields the schedule loop never writes. -/
theorem scheduleSkip_transfer {post : Payload} {db db2 : DB}
    {dr : DebateRec} (hdts : db2.debateTeams = db.debateTeams)
    (hteams : db2.teams = db.teams) (hdivs : db2.divisions = db.divisions)
    (h : scheduleSkip post db dr) : scheduleSkip post db2 dr := by
  obtain ⟨dt, hdt, team, hteam, hcase⟩ := h
  refine ⟨dt, ?_, team, ?_, ?_⟩
  · show ((db2.debateTeams.filter
      (fun x => x.debate == dr.id)).head? = some dt)
    rw [hdts]
    exact hdt
  · show db2.teams.find? (fun x => x.id == dt.team) = some team
    rw [hteams]
    exact hteam
  · rcases hcase with hdiv | ⟨divId, division, hdiv, hget, hcase2⟩
    · exact .inl hdiv
    · refine .inr ⟨divId, division, hdiv, ?_, hcase2⟩
      show db2.divisions.find? (fun x => x.id == divId) = some division
      rw [hdivs]
      exact hget

theorem applyScheduleList_frame {post : Payload} :
    ∀ {l : List DebateRec} {db db2 : DB},
      applyScheduleList post db l = .ok db2 → ∀ d, (∀ dr ∈ l, dr.id ≠ d) →
        db2.debateTeams = db.debateTeams ∧ db2.teams = db.teams ∧
        db2.divisions = db.divisions ∧
        db2.getDebate? d = db.getDebate? d := by
  intro l
  induction l with
  | nil =>
    intro db db2 h d _
    rw [(Except.ok.injEq _ _).mp h.symm]
    exact ⟨rfl, rfl, rfl, rfl⟩
  | cons dr rest ih =>
    intro db db2 h d hd
    unfold applyScheduleList at h
    split at h
    · exact absurd h (by simp)
    next dbm hdbm =>
      obtain ⟨h1, h2, h3, h4⟩ :=
        ih h d (fun x hx => hd x (List.mem_cons_of_mem dr hx))
      obtain ⟨g1, g2, g3, g4⟩ := applyScheduleStep_ok_frame hdbm
      exact ⟨h1.trans g1, h2.trans g2, h3.trans g3,
        h4.trans (g4 d (Ne.symm (hd dr (List.mem_cons_self dr rest))))⟩

theorem applyScheduleList_append {post : Payload} :
    ∀ {l1 l2 : List DebateRec} {db db2 : DB},
      applyScheduleList post db (l1 ++ l2) = .ok db2 ↔
        ∃ dbm, applyScheduleList post db l1 = .ok dbm ∧
          applyScheduleList post dbm l2 = .ok db2 := by
  intro l1
  induction l1 with
  | nil =>
    intro l2 db db2
    constructor
    · intro h
      exact ⟨db, rfl, h⟩
    · rintro ⟨dbm, h1, h2⟩
      have hdb : dbm = db := (Except.ok.injEq _ _).mp h1.symm
      subst hdb
      exact h2
  | cons dr rest ih =>
    intro l2 db db2
    constructor
    · intro h
      rw [List.cons_append] at h
      unfold applyScheduleList at h
      split at h
      · exact absurd h (by simp)
      next dbm hdbm =>
        obtain ⟨dbx, hx1, hx2⟩ := ih.mp h
        refine ⟨dbx, ?_, hx2⟩
        unfold applyScheduleList
        rw [hdbm]
        exact hx1
    · rintro ⟨dbm, h1, h2⟩
      rw [List.cons_append]
      unfold applyScheduleList at h1 ⊢
      split at h1
      · exact absurd h1 (by simp)
      next dbx hdbx =>
        exact ih.mpr ⟨dbm, h1, h2⟩

/-- Decomposition of a successful ApplyDebateScheduleView request. -/
theorem applyDebateSchedulePost_ok_elim {post : Payload} {roundId : Nat}
    {db db' : DB} {msgs : List Msg} {resp : StatusResponse}
    (h : applyDebateSchedulePost post roundId db = .ok (db', msgs, resp)) :
    applyScheduleList post db
      (db.debates.filter (fun d => d.round == roundId)) = .ok db' := by
  unfold applyDebateSchedulePost at h
  split at h
  · exact absurd h (by simp)
  next db2 hdb2 =>
    have := (Except.ok.injEq _ _).mp h
    have hdb : db' = db2 := congrArg Prod.fst this |>.symm
    subst hdb
    exact hdb2

/-- Pairwise position uniqueness plus distinct primary keys bound the number
of rows a debate has in one position by one. -/
theorem filter_pos_length_le_one {db : DB} (hk : dtKeysSound db)
    (hp : positionInvariant db) (d : Int) (p : Position) :
    (db.debateTeams.filter
      (fun dt => dt.debate == d && dt.position == p)).length ≤ 1 := by
  rcases hfl : db.debateTeams.filter
      (fun dt => dt.debate == d && dt.position == p) with _ | ⟨x, _ | ⟨y, rest⟩⟩
  · rw [hfl]
    simp
  · rw [hfl]
    simp
  · exfalso
    have hx : x ∈ db.debateTeams.filter
        (fun dt => dt.debate == d && dt.position == p) := by
      rw [hfl]
      exact List.mem_cons_self _ _
    have hy : y ∈ db.debateTeams.filter
        (fun dt => dt.debate == d && dt.position == p) := by
      rw [hfl]
      exact List.mem_cons_of_mem _ (List.mem_cons_self _ _)
    have hxp := List.of_mem_filter hx
    have hyp := List.of_mem_filter hy
    rw [Bool.and_eq_true] at hxp hyp
    have hxd : x.debate = d := by simpa using hxp.1
    have hyd : y.debate = d := by simpa using hyp.1
    have hxpos : x.position = p := by simpa using hxp.2
    have hypos : y.position = p := by simpa using hyp.2
    have hid : x.id = y.id :=
      hp x (List.mem_of_mem_filter hx) y (List.mem_of_mem_filter hy)
        (hxd.trans hyd.symm) (hxpos.trans hypos.symm)
    have hnd : ((db.debateTeams.filter
        (fun dt => dt.debate == d && dt.position == p)).map
          DebateTeamRec.id).Nodup :=
      hk.2.sublist (List.Sublist.map _ (List.filter_sublist _))
    rw [hfl, List.map_cons, List.map_cons, List.nodup_cons] at hnd
    exact hnd.1 (by rw [hid]; exact List.mem_cons_self _ _)

-- ===========================================================================
-- The spec sentences, settled
-- ===========================================================================

/-- C5: each lifecycle command whose guard fails is rejected with a
well-defined error and leaves the round's draw status unchanged: confirm
when not DRAFT, release when not CONFIRMED and unrelease when not RELEASED
answer a bad-request response without touching the round, and creating a
draw when the status is not NONE queues the already-a-draw error and
redirects without invoking the pairing generator, allocating venues, or
touching the round or any Debate/DebateTeam record. -/
theorem C5_guarded_lifecycle_rejections (r : Round)
    (gen : Round → DB → Except String (Round × DB)) (alloc : DB → DB)
    (constraintsExist : Bool) (db : DB) :
    (r.draw_status ≠ .STATUS_DRAFT →
      confirmDrawCreationPost r =
        (r, .badRequest "Draw status is not DRAFT")) ∧
    (r.draw_status ≠ .STATUS_CONFIRMED →
      drawReleasePost r = (r, .badRequest "Draw status is not CONFIRMED")) ∧
    (r.draw_status ≠ .STATUS_RELEASED →
      drawUnreleasePost r = (r, .badRequest "Draw status is not RELEASED")) ∧
    (r.draw_status ≠ .STATUS_NONE →
      createDrawPost gen alloc constraintsExist r db =
        { round := r, db := db, generatorInvoked := false,
          venuesAllocated := false,
          msgs := [(.error, "Could not create draw for " ++ r.name ++
            ", there was already a draw!")],
          response := .redirect "draw" }) := by
  refine ⟨?_, ?_, ?_, ?_⟩ <;> intro h <;>
    simp [confirmDrawCreationPost, drawReleasePost, drawUnreleasePost,
      createDrawPost, h]

theorem C5_guarded_lifecycle_rejections_witness :
    (confirmDrawCreationPost rNone =
      (rNone, .badRequest "Draw status is not DRAFT")) ∧
    (drawReleasePost rNone =
      (rNone, .badRequest "Draw status is not CONFIRMED")) ∧
    (drawUnreleasePost rNone =
      (rNone, .badRequest "Draw status is not RELEASED")) ∧
    (createDrawPost wGen id false rReleased wdb0 =
      { round := rReleased, db := wdb0, generatorInvoked := false,
        venuesAllocated := false,
        msgs := [(.error, "Could not create draw for " ++ rReleased.name ++
          ", there was already a draw!")],
        response := .redirect "draw" }) :=
  ⟨(C5_guarded_lifecycle_rejections rNone wGen id false wdb0).1 (by decide),
   (C5_guarded_lifecycle_rejections rNone wGen id false wdb0).2.1 (by decide),
   (C5_guarded_lifecycle_rejections rNone wGen id false wdb0).2.2.1
     (by decide),
   (C5_guarded_lifecycle_rejections rReleased wGen id false wdb0).2.2.2
     (by decide)⟩

/-- C9: a round start-time submission in 24-hour colon format such as
"13:57" parses to that time of day and is stored on the round; any input the
%H:%M parse rejects, such as "25:99", queues the validation message and
leaves the round untouched. -/
theorem C9_round_start_time (r : Round) (s : String) :
    (strptimeHM "13:57" = some ⟨13, 57⟩) ∧
    (setRoundStartTimePost "13:57" r =
      ({ r with starts_at := some ⟨13, 57⟩ }, [], .redirect "draw")) ∧
    (strptimeHM "25:99" = none) ∧
    (strptimeHM s = none →
      setRoundStartTimePost s r =
        (r, [(.error, "Sorry, \"" ++ s ++ "\" isn't a valid time. It must be in 24-hour format, with a colon, for example: \"13:57\".")],
          .redirect "draw")) := by
  refine ⟨by decide, rfl, by decide, ?_⟩
  intro h
  unfold setRoundStartTimePost
  rw [h]

theorem C9_round_start_time_witness :
    setRoundStartTimePost "25:99" rNone =
      (rNone, [(.error, "Sorry, \"25:99\" isn't a valid time. It must be in 24-hour format, with a colon, for example: \"13:57\".")],
        .redirect "draw") :=
  (C9_round_start_time rNone "25:99").2.2.2 (by decide)

/-- C10: SaveDrawMatchups is not guarded by the draw status state machine:
the outcome of a reconciliation submission is the same function of the
payload and the database whatever round (and in particular whatever
draw_status) the view resolves, and every successful outcome carries the
same "ok" response, never a state-dependent rejection. -/
theorem C10_no_draw_status_guard (r1 r2 : Round) (post : Payload) (db : DB)
    (db' : DB) (resp : String) :
    saveDrawMatchupsView r1 post db = saveDrawMatchupsView r2 post db ∧
    (saveDrawMatchupsView r1 post db = .ok (db', resp) → resp = "ok") :=
  ⟨rfl, fun h => (saveDrawMatchupsPost_ok_elim h).1⟩

theorem C10_no_draw_status_guard_witness :
    saveDrawMatchupsView rNone wpost wdb0 =
      saveDrawMatchupsView rReleased wpost wdb0 ∧ "ok" = "ok" :=
  ⟨(C10_no_draw_status_guard rNone rReleased wpost wdb0 wdb1 "ok").1,
   (C10_no_draw_status_guard rNone rReleased wpost wdb0 wdb1 "ok").2
     (by decide)⟩

/-- C6: when the round's draw status is not RELEASED, the public draw page
is the base template carrying only the not-yet-released notice and no
pairing data; exactly when the status is RELEASED, the page is the draw
table template showing the round's pairings. -/
theorem C6_public_draw_release_gating (r : Round) (roundId : Nat)
    (db : DB) :
    (r.draw_status ≠ .STATUS_RELEASED →
      publicDrawForRoundView r roundId db =
        { template := "base.html",
          msgs := [(.info, "The draw for " ++ r.name ++
            " has yet to be released")],
          pairings := none }) ∧
    (r.draw_status = .STATUS_RELEASED →
      publicDrawForRoundView r roundId db =
        { template := "draw_display_by.html", msgs := [],
          pairings := some (drawRows db roundId) }) := by
  constructor <;> intro h <;>
    simp [publicDrawForRoundView, publicDrawTemplateAndMsgs, renderTemplate,
      h]

theorem C6_public_draw_release_gating_witness :
    (publicDrawForRoundView rNone 1 wdb0 =
      { template := "base.html",
        msgs := [(.info, "The draw for " ++ rNone.name ++
          " has yet to be released")],
        pairings := none }) ∧
    (publicDrawForRoundView rReleased 1 wdb0 =
      { template := "draw_display_by.html", msgs := [],
        pairings := some (drawRows wdb0 1) }) :=
  ⟨(C6_public_draw_release_gating rNone 1 wdb0).1 (by decide),
   (C6_public_draw_release_gating rReleased 1 wdb0).2 (by decide)⟩

/-- C7: the concatenated date and time-slot string is parsed with the
ISO-like layout first and the day/month/year layout second, the first
success winning; "2024-03-15" with slot "14:30:00" parses to 15 March 2024
14:30:00 via the first layout, "15/03/2024" to the same date-time via the
fallback only, and "not-a-date" parses under neither layout, making the
schedule run report ValueError for that debate instead of skipping or
defaulting it. -/
theorem C7_schedule_date_parsing :
    (∀ s t, strptimeYmdHMS s = some t → parseSubmittedDateTime s = some t) ∧
    (∀ s, strptimeYmdHMS s = none →
      parseSubmittedDateTime s = strptimeDmyHMS s) ∧
    strptimeYmdHMS ("2024-03-15" ++ " " ++ "14:30:00") =
      some ⟨2024, 3, 15, 14, 30, 0⟩ ∧
    strptimeYmdHMS ("15/03/2024" ++ " " ++ "14:30:00") = none ∧
    strptimeDmyHMS ("15/03/2024" ++ " " ++ "14:30:00") =
      some ⟨2024, 3, 15, 14, 30, 0⟩ ∧
    parseSubmittedDateTime ("not-a-date" ++ " " ++ "14:30:00") = none ∧
    applyDebateSchedulePost [("7", "2024-03-15")] 1 wdbSched =
      .ok (wdbSched15, [(.success, "Applied schedules to debates")],
        .redirect "draw") ∧
    applyDebateSchedulePost [("7", "15/03/2024")] 1 wdbSched =
      .ok (wdbSched15, [(.success, "Applied schedules to debates")],
        .redirect "draw") ∧
    applyDebateSchedulePost [("7", "not-a-date")] 1 wdbSched =
      .error (wdbSched, .valueError) := by
  refine ⟨?_, ?_, by decide, by decide, by decide, by decide, by decide,
    by decide, by decide⟩
  · intro s t h
    unfold parseSubmittedDateTime
    rw [h]
  · intro s h
    unfold parseSubmittedDateTime
    rw [h]

theorem C7_schedule_date_parsing_witness :
    parseSubmittedDateTime ("2024-03-15" ++ " " ++ "14:30:00") =
      some ⟨2024, 3, 15, 14, 30, 0⟩ ∧
    parseSubmittedDateTime ("15/03/2024" ++ " " ++ "14:30:00") =
      strptimeDmyHMS ("15/03/2024" ++ " " ++ "14:30:00") :=
  ⟨C7_schedule_date_parsing.1 ("2024-03-15" ++ " " ++ "14:30:00")
      ⟨2024, 3, 15, 14, 30, 0⟩ (by decide),
   C7_schedule_date_parsing.2.1 ("15/03/2024" ++ " " ++ "14:30:00")
      (by decide)⟩

/-- C2: the code evaluated at a new-debate entry with both teams present:
because the name round is unbound in SaveDrawMatchups.post, the Debate
constructor is handed the Python builtin round function and raises
ValueError, so no Debate owned by the round being edited is ever created;
an entry with a blank team field creates nothing and the request
succeeds. -/
theorem C2_new_debate_entry_behaviour :
    saveDrawMatchupsPost wpostNew wdb0 = .error (wdb0, .valueError) ∧
    saveDrawMatchupsPost wpostNewBlank wdb0 = .ok (wdb0, "ok") := by
  decide

/-- C3 counterexample: reconciliation is not atomic.  On wdb0, the edit of
debate 10 whose negative team id 99 resolves to no Team row first deletes
both old rows and saves the new affirmative row, then raises; the request
terminates with debate 10 still persisted and carrying exactly one
DebateTeam. -/
theorem C3_half_pair_counterexample :
    saveDrawMatchupsPost wpostMissingNeg wdb0 =
      .error (wdbHalf, .teamDoesNotExist 99) ∧
    wdbHalf.hasDebate 10 = true ∧
    wdbHalf.dtsOf 10 = [⟨2, 10, 1, .affirmative⟩] := by
  decide

/-- C3 (amended): reconciliation is applied sequentially in autocommit
mode, not all-or-nothing: a failing team lookup can leave a debate with
exactly one DebateTeam persisted (see the counterexample).  When the
submission terminates successfully, however, no debate of a database that
had no half-paired debate is left with exactly one DebateTeam. -/
theorem C3_no_half_pair_on_success (post : Payload) (db db' : DB)
    (resp : String) (hn : noHalfPair db)
    (hok : saveDrawMatchupsPost post db = .ok (db', resp)) :
    noHalfPair db' := by
  obtain ⟨-, ids, nids, -, -, hlist⟩ := saveDrawMatchupsPost_ok_elim hok
  exact processExistingList_noHalfPair hlist hn

theorem C3_no_half_pair_on_success_witness : noHalfPair wdb1 :=
  C3_no_half_pair_on_success wpost wdb0 wdb1 "ok" (by decide) (by decide)

/-- C4 counterexample: the reconciliation does not enforce that a team
appears in at most one debate of the round.  A submission assigning team 1
as the affirmative of both debates 10 and 11 succeeds, leaving team 1 in
two debates. -/
theorem C4_duplicate_team_counterexample :
    saveDrawMatchupsPost wpostDup wdbDup = .ok (wdbDupAfter, "ok") ∧
    (∃ dt ∈ wdbDupAfter.dtsOf 10, dt.team = 1) ∧
    (∃ dt ∈ wdbDupAfter.dtsOf 11, dt.team = 1) ∧
    wdbDupAfter.hasDebate 10 = true ∧ wdbDupAfter.hasDebate 11 = true := by
  decide

/-- C4 (amended): after a successful reconciliation submission, every
debate has at most one DebateTeam per position, provided primary keys were
sound and the invariant held before the submission; the further part of the
sentence, that a team appears in at most one debate of the round even under
a duplicated team assignment, does not hold (see the counterexample). -/
theorem C4_position_uniqueness_after_success (post : Payload) (db db' : DB)
    (resp : String) (hk : dtKeysSound db) (hp : positionInvariant db)
    (hok : saveDrawMatchupsPost post db = .ok (db', resp)) (d : Int)
    (p : Position) :
    (db'.debateTeams.filter
      (fun dt => dt.debate == d && dt.position == p)).length ≤ 1 := by
  obtain ⟨-, ids, nids, -, -, hlist⟩ := saveDrawMatchupsPost_ok_elim hok
  exact filter_pos_length_le_one (processExistingList_dtKeysSound hlist hk)
    (processExistingList_positionInvariant hlist hp) d p

theorem C4_position_uniqueness_after_success_witness :
    (wdb1.debateTeams.filter (fun dt =>
      dt.debate == 10 && dt.position == Position.affirmative)).length ≤ 1 :=
  C4_position_uniqueness_after_success wpost wdb0 wdb1 "ok" (by decide)
    (by decide) (by decide) 10 .affirmative

/-- C1: for an existing-debate entry of a successful reconciliation
submission, if both stripped team fields are non-blank then the debate's
rows afterwards are exactly two freshly created ones, AFFIRMATIVE for the
requested affirmative team id and NEGATIVE for the requested negative team
id, and none of the pre-edit DebateTeam rows survives; if either stripped
field is blank, the debate row no longer exists and no DebateTeam row is
attached to it. -/
theorem C1_existing_entry_reconciliation {post : Payload} {db db' : DB}
    {resp : String} {d : Int} {ids : List Int} {affRaw negRaw : String}
    (hfresh : ∀ dt ∈ db.debateTeams, dt.id < db.nextDtId)
    (hids : extractIds "debate_" post = some ids)
    (hnd : ids.Nodup) (hmem : d ∈ ids)
    (haff : postGet post ("aff_" ++ toString d) = some affRaw)
    (hneg : postGet post ("neg_" ++ toString d) = some negRaw)
    (hok : saveDrawMatchupsPost post db = .ok (db', resp)) :
    (pyReplace affRaw "team_" ≠ "" ∧ pyReplace negRaw "team_" ≠ "" →
      ∃ affId negId i,
        pyInt? (pyReplace affRaw "team_") = some affId ∧
        pyInt? (pyReplace negRaw "team_") = some negId ∧
        db.nextDtId ≤ i ∧
        db'.dtsOf d = [⟨i, d, affId, .affirmative⟩,
          ⟨i + 1, d, negId, .negative⟩] ∧
        ∀ dt ∈ db'.dtsOf d, dt ∉ db.debateTeams) ∧
    ((pyReplace affRaw "team_" = "" ∨ pyReplace negRaw "team_" = "") →
      db'.hasDebate d = false ∧ db'.dtsOf d = []) := by
  obtain ⟨-, ids2, nids, hids2, -, hlist⟩ := saveDrawMatchupsPost_ok_elim hok
  rw [hids] at hids2
  have hide : ids2 = ids := (Option.some.injEq _ _).mp hids2.symm
  subst hide
  obtain ⟨l1, l2, hsplit⟩ := List.append_of_mem hmem
  rw [hsplit, List.nodup_append] at hnd
  obtain ⟨hnd1, hnd2, hdisj⟩ := hnd
  rw [List.nodup_cons] at hnd2
  have hdl1 : d ∉ l1 := fun hc => hdisj hc (List.mem_cons_self d l2)
  have hdl2 : d ∉ l2 := hnd2.1
  rw [hsplit] at hlist
  obtain ⟨dbA, hA, hrest⟩ := processExistingList_append.mp hlist
  unfold processExistingList at hrest
  split at hrest
  · exact absurd hrest (by simp)
  next dbB hstep =>
    obtain ⟨hA1, hA2, hA3⟩ := processExistingList_frame hA d hdl1
    obtain ⟨hB1, hB2, hB3⟩ := processExistingList_frame hrest d hdl2
    have hself := processOneExisting_ok_self hstep haff hneg
    constructor
    · rintro ⟨hna, hnb⟩
      rcases hself with ⟨-, -, affId, negId, hia, hib, hdts⟩ |
          ⟨hblank, -, -⟩
      · refine ⟨affId, negId, dbA.nextDtId, hia, hib, hA3, ?_, ?_⟩
        · rw [hB1, hdts]
        · intro dt hdt hmemdb
          rw [hB1, hdts] at hdt
          have hlt := hfresh dt hmemdb
          rcases List.mem_cons.mp hdt with h1 | h1
          · rw [h1] at hlt
            simp only [] at hlt
            omega
          · rcases List.mem_cons.mp h1 with h2 | h2
            · rw [h2] at hlt
              simp only [] at hlt
              omega
            · exact absurd h2 (List.not_mem_nil dt)
      · rcases hblank with h | h
        · exact absurd h hna
        · exact absurd h hnb
    · intro hblank
      rcases hself with ⟨hna, hnb, -⟩ | ⟨-, hhas, hdts⟩
      · rcases hblank with h | h
        · exact absurd h hna
        · exact absurd h hnb
      · refine ⟨?_, by rw [hB1, hdts]⟩
        show (db'.getDebate? d).isSome = false
        rw [hB2]
        exact hhas

theorem C1_existing_entry_reconciliation_witness :
    (pyReplace "team_1" "team_" ≠ "" ∧ pyReplace "team_2" "team_" ≠ "" →
      ∃ affId negId i,
        pyInt? (pyReplace "team_1" "team_") = some affId ∧
        pyInt? (pyReplace "team_2" "team_") = some negId ∧
        wdb0.nextDtId ≤ i ∧
        wdb1.dtsOf 10 = [⟨i, 10, affId, .affirmative⟩,
          ⟨i + 1, 10, negId, .negative⟩] ∧
        ∀ dt ∈ wdb1.dtsOf 10, dt ∉ wdb0.debateTeams) ∧
    ((pyReplace "team_1" "team_" = "" ∨ pyReplace "team_2" "team_" = "") →
      wdb1.hasDebate 10 = false ∧ wdb1.dtsOf 10 = []) :=
  @C1_existing_entry_reconciliation wpost wdb0 wdb1 "ok" 10 [10] "team_1"
    "team_2" (by decide) (by decide) (by decide) (by decide) (by decide)
    (by decide) (by decide)

/-- C8 counterexample: when the submitted payload has no date string at all
for the division's venue group, the debate is not skipped: the lookup
raises KeyError and the scheduling run aborts rather than completing for
the other debates. -/
theorem C8_absent_date_key_counterexample :
    applyDebateSchedulePost [] 1 wdbSched =
      .error (wdbSched, .keyError "7") ∧
    (wdbSched.getDebate? 20).isSome = true := by
  decide

/-- C8 (amended): a debate whose team has no division, or whose division
has no time slot, or whose division's venue group has a blank (present but
empty) date string in the payload, is left alone by its own schedule
iteration, and when the run completes its row is untouched; a date string
that is absent altogether, by contrast, raises KeyError (see the
counterexample). -/
theorem C8_skip_conditions {post : Payload} {roundId : Nat} {db db' : DB}
    {msgs : List Msg} {resp : StatusResponse} {dr : DebateRec}
    (hnodup : (db.debates.map DebateRec.id).Nodup)
    (hmem : dr ∈ db.debates) (hround : dr.round = roundId)
    (hskip : scheduleSkip post db dr)
    (hok : applyDebateSchedulePost post roundId db = .ok (db', msgs, resp)) :
    applyScheduleStep post db dr = .ok db ∧
    db'.getDebate? dr.id = db.getDebate? dr.id := by
  refine ⟨applyScheduleStep_skip hskip, ?_⟩
  have hlist := applyDebateSchedulePost_ok_elim hok
  have hmemf : dr ∈ db.debates.filter (fun x => x.round == roundId) :=
    List.mem_filter.mpr ⟨hmem, by simp [hround]⟩
  have hndf : ((db.debates.filter
      (fun x => x.round == roundId)).map DebateRec.id).Nodup :=
    hnodup.sublist (List.Sublist.map _ (List.filter_sublist _))
  obtain ⟨l1, l2, hsplit⟩ := List.append_of_mem hmemf
  rw [hsplit] at hlist
  rw [hsplit, List.map_append, List.map_cons, List.nodup_append] at hndf
  obtain ⟨hnd1, hnd2, hdisj⟩ := hndf
  rw [List.nodup_cons] at hnd2
  obtain ⟨dbA, hA, hrest⟩ := applyScheduleList_append.mp hlist
  unfold applyScheduleList at hrest
  split at hrest
  · exact absurd hrest (by simp)
  next dbB hstep =>
    have hl1 : ∀ x ∈ l1, x.id ≠ dr.id := by
      intro x hx hc
      exact hdisj (List.mem_map_of_mem _ hx)
        (by rw [hc]; exact List.mem_cons_self _ _)
    obtain ⟨hA1, hA2, hA3, hA4⟩ := applyScheduleList_frame hA dr.id hl1
    have hskipA : scheduleSkip post dbA dr :=
      scheduleSkip_transfer hA1 hA2 hA3 hskip
    have hBA : dbB = dbA := by
      have hsk := applyScheduleStep_skip hskipA
      rw [hsk] at hstep
      exact (Except.ok.injEq _ _).mp hstep.symm
    subst hBA
    have hl2 : ∀ x ∈ l2, x.id ≠ dr.id := by
      intro x hx hc
      exact hnd2.1 (by rw [← hc]; exact List.mem_map_of_mem _ hx)
    obtain ⟨hC1, hC2, hC3, hC4⟩ := applyScheduleList_frame hrest dr.id hl2
    exact hC4.trans hA4

theorem C8_skip_conditions_witness :
    applyScheduleStep [] wdbSkip ⟨30, 1, none, none⟩ = .ok wdbSkip ∧
    wdbSkip.getDebate? 30 = wdbSkip.getDebate? 30 :=
  @C8_skip_conditions [] 1 wdbSkip wdbSkip
    [(.success, "Applied schedules to debates")] (.redirect "draw")
    ⟨30, 1, none, none⟩ (by decide) (by decide) rfl
    ⟨⟨0, 30, 9, .affirmative⟩, rfl, ⟨9, none⟩, rfl, .inl rfl⟩ (by decide)

end TabbycatDraw
